import Mathlib

/-!
Verification development for the SigV4 authentication core of the
kaoliang gateway (package cmd, signature-v4 verification file, and
pkg/config/server.go).

Go values are modelled as follows: a Go string is a sequence of bytes
(UTF-8 of its code points), modelled here as `String` together with the
byte view `strBytes`; a Go byte slice is `List Nat` with entries below
256; `http.Header` and `url.Values` are association lists from names to
value lists; `time.Time` is a UTC civil time `GoTime` together with its
nanosecond instant `GoTime.toNs`.  Collaborators that live outside the
verified source (the rados-backed credential store, the environment,
parsers defined in sibling files) enter as explicit parameters or are
modelled from the spec, as marked on each definition.
-/

namespace Kaoliang

/-! ## Bytes and UTF-8 -/

/-- UTF-8 encoding of a single code point, as bytes (each < 256). -/
def utf8Bytes (c : Char) : List Nat :=
  let n := c.toNat
  if n < 128 then [n]
  else if n < 2048 then [192 + n / 64, 128 + n % 64]
  else if n < 65536 then [224 + n / 4096, 128 + (n / 64) % 64, 128 + n % 64]
  else [240 + n / 262144, 128 + (n / 4096) % 64, 128 + (n / 64) % 64, 128 + n % 64]

/-- The byte view of a Go string: UTF-8 bytes of its code points.
Models the Go conversion from string to byte slice. -/
def strBytes (s : String) : List Nat :=
  (s.data.map utf8Bytes).flatten

/-- Lowercase hex digit for a value below 16. -/
def hexChar (n : Nat) : Char :=
  if n < 10 then Char.ofNat (48 + n) else Char.ofNat (87 + n)

/-- Models Go `hex.EncodeToString`: lowercase hex, two digits per byte. -/
def hexEncodeToString (bs : List Nat) : String :=
  String.mk ((bs.map (fun b => [hexChar (b / 16), hexChar (b % 16)])).flatten)

/-! ## SHA-256 (FIPS 180-4), over byte lists, all words as Nat mod 2^32 -/

def pow32 : Nat := 4294967296

def add32 (a b : Nat) : Nat := (a + b) % pow32

def rotr32 (n x : Nat) : Nat := ((x >>> n) ||| (x <<< (32 - n))) % pow32

def bigSigma0 (x : Nat) : Nat := (rotr32 2 x) ^^^ (rotr32 13 x) ^^^ (rotr32 22 x)

def bigSigma1 (x : Nat) : Nat := (rotr32 6 x) ^^^ (rotr32 11 x) ^^^ (rotr32 25 x)

def smallSigma0 (x : Nat) : Nat := (rotr32 7 x) ^^^ (rotr32 18 x) ^^^ (x >>> 3)

def smallSigma1 (x : Nat) : Nat := (rotr32 17 x) ^^^ (rotr32 19 x) ^^^ (x >>> 10)

def chFn (x y z : Nat) : Nat := (x &&& y) ^^^ ((x ^^^ 4294967295) &&& z)

def majFn (x y z : Nat) : Nat := (x &&& y) ^^^ (x &&& z) ^^^ (y &&& z)

def sha256K : List Nat :=
  [1116352408, 1899447441, 3049323471, 3921009573,
   961987163, 1508970993, 2453635748, 2870763221,
   3624381080, 310598401, 607225278, 1426881987,
   1925078388, 2162078206, 2614888103, 3248222580,
   3835390401, 4022224774, 264347078, 604807628,
   770255983, 1249150122, 1555081692, 1996064986,
   2554220882, 2821834349, 2952996808, 3210313671,
   3336571891, 3584528711, 113926993, 338241895,
   666307205, 773529912, 1294757372, 1396182291,
   1695183700, 1986661051, 2177026350, 2456956037,
   2730485921, 2820302411, 3259730800, 3345764771,
   3516065817, 3600352804, 4094571909, 275423344,
   430227734, 506948616, 659060556, 883997877,
   958139571, 1322822218, 1537002063, 1747873779,
   1955562222, 2024104815, 2227730452, 2361852424,
   2428436474, 2756734187, 3204031479, 3329325298]

def sha256H0 : List Nat :=
  [1779033703, 3144134277, 1013904242, 2773480762,
   1359893119, 2600822924, 528734635, 1541459225]

/-- Big-endian 8-byte encoding of a length in bits. -/
def be64 (n : Nat) : List Nat :=
  [(n >>> 56) % 256, (n >>> 48) % 256, (n >>> 40) % 256, (n >>> 32) % 256,
   (n >>> 24) % 256, (n >>> 16) % 256, (n >>> 8) % 256, n % 256]

/-- SHA-256 padding: append 0x80, zeros to 56 mod 64, then the bit length. -/
def shaPad (m : List Nat) : List Nat :=
  let L := m.length
  let k := (119 - (L % 64)) % 64
  m ++ 128 :: List.replicate k 0 ++ be64 (L * 8)

/-- Big-endian 32-bit words from bytes (groups of four). -/
def toWords : List Nat → List Nat
  | b0 :: b1 :: b2 :: b3 :: rest =>
      (((b0 * 256 + b1) * 256 + b2) * 256 + b3) :: toWords rest
  | _ => []

/-- One extension step of the message schedule, on the reversed schedule. -/
def stepW (rw : List Nat) : List Nat :=
  add32 (add32 (smallSigma1 (rw.getD 1 0)) (rw.getD 6 0))
        (add32 (smallSigma0 (rw.getD 14 0)) (rw.getD 15 0)) :: rw

def extendW : Nat → List Nat → List Nat
  | 0, rw => rw
  | n + 1, rw => extendW n (stepW rw)

/-- The 64-entry message schedule from the 16 words of one block. -/
def schedule (ws : List Nat) : List Nat := (extendW 48 ws.reverse).reverse

/-- One SHA-256 round on the 8-word working state. -/
def sha256Round (st : List Nat) (k w : Nat) : List Nat :=
  match st with
  | [a, b, c, d, e, f, g, h] =>
      let t1 := add32 (add32 (add32 h (bigSigma1 e)) (add32 (chFn e f g) k)) w
      let t2 := add32 (bigSigma0 a) (majFn a b c)
      [add32 t1 t2, a, b, c, add32 d t1, e, f, g]
  | other => other

/-- Compress one 64-byte block into the running hash state. -/
def sha256Compress (st : List Nat) (block : List Nat) : List Nat :=
  let ws := schedule (toWords block)
  let st2 := (sha256K.zip ws).foldl (fun s p => sha256Round s p.1 p.2) st
  List.zipWith add32 st st2

/-- Fold the compression over consecutive 64-byte blocks; fuel-driven so the
kernel can evaluate it (the fuel is always at least the block count). -/
def sha256Blocks : Nat → List Nat → List Nat → List Nat
  | 0, st, _ => st
  | _ + 1, st, [] => st
  | fuel + 1, st, m => sha256Blocks fuel (sha256Compress st (m.take 64)) (m.drop 64)

def wordBytes (w : Nat) : List Nat :=
  [(w >>> 24) % 256, (w >>> 16) % 256, (w >>> 8) % 256, w % 256]

/-- SHA-256 digest of a byte list, 32 bytes. -/
def sha256 (m : List Nat) : List Nat :=
  let pm := shaPad m
  ((sha256Blocks pm.length sha256H0 pm).map wordBytes).flatten

/-- Modelled from the spec: the HMAC primitive (`sumHMAC`) lives in a sibling
source file not included here; the spec describes it as wrapping the keyed
hash, i.e. standard HMAC-SHA256 (RFC 2104, block size 64). -/
def sumHMAC (key data : List Nat) : List Nat :=
  let k0 := if 64 < key.length then sha256 key else key
  let kp := k0 ++ List.replicate (64 - k0.length) 0
  sha256 ((kp.map (fun b => b ^^^ 92)) ++ sha256 ((kp.map (fun b => b ^^^ 54)) ++ data))

/-! ## Go string helpers -/

/-- Models Go `strings.Join`. -/
def goJoin (sep : String) : List String → String
  | [] => ""
  | [x] => x
  | x :: y :: t => x ++ sep ++ goJoin sep (y :: t)

/-- ASCII lowering of one character; header names and map keys used by the
source are ASCII, where Go `strings.ToLower` acts exactly like this. -/
def lowerChar (c : Char) : Char :=
  if 65 ≤ c.toNat ∧ c.toNat ≤ 90 then Char.ofNat (c.toNat + 32) else c

/-- Models Go `strings.ToLower` on the ASCII inputs used here. -/
def goToLower (s : String) : String := String.mk (s.data.map lowerChar)

/-- Whitespace recognized by Go `strings.Fields` (ASCII part). -/
def isGoSpace (c : Char) : Bool :=
  c.toNat = 32 || c.toNat = 9 || c.toNat = 10 || c.toNat = 11 || c.toNat = 12 || c.toNat = 13

def goFieldsAux : List Char → List Char → List (List Char)
  | cur, [] => if cur = [] then [] else [cur.reverse]
  | cur, c :: cs =>
      if isGoSpace c then
        (if cur = [] then goFieldsAux [] cs else cur.reverse :: goFieldsAux [] cs)
      else goFieldsAux (c :: cur) cs

/-- Models Go `strings.Fields`: maximal runs of non-whitespace. -/
def goFields (s : String) : List String := (goFieldsAux [] s.data).map String.mk

/-- Modelled from the spec: `signV4TrimAll` lives in a sibling source file;
per the spec it trims leading, trailing and internal-run whitespace, which is
Go strings.Join(strings.Fields(input), one space). -/
def signV4TrimAll (input : String) : String := goJoin " " (goFields input)

/-- Byte-wise lexicographic order, as Go string comparison. -/
def bytesLe : List Nat → List Nat → Bool
  | [], _ => true
  | _ :: _, [] => false
  | a :: as, b :: bs => if a < b then true else if b < a then false else bytesLe as bs

def goStrLe (s t : String) : Bool := bytesLe (strBytes s) (strBytes t)

def insertStr (x : String) : List String → List String
  | [] => [x]
  | y :: ys => if goStrLe x y then x :: y :: ys else y :: insertStr x ys

/-- Models Go `sort.Strings` (ascending byte-wise order). -/
def sortStrings : List String → List String
  | [] => []
  | x :: xs => insertStr x (sortStrings xs)

def listStartsWith : List Char → List Char → Bool
  | _, [] => true
  | [], _ :: _ => false
  | c :: cs, d :: ds => c = d && listStartsWith cs ds

/-- Models Go `strings.HasPrefix`. -/
def goHasPre (s pre : String) : Bool := listStartsWith s.data pre.data

/-- Models Go `strings.Replace(s, c, r, -1)` for a one-character pattern. -/
def goReplaceChar (s : String) (c : Char) (r : String) : String :=
  String.mk ((s.data.map (fun a => if a = c then r.data else [a])).flatten)

/-- Models Go `strings.Split` for a one-character separator. -/
def goSplitAux (c : Char) : List Char → List Char → List (List Char)
  | cur, [] => [cur.reverse]
  | cur, a :: as =>
      if a = c then cur.reverse :: goSplitAux c [] as else goSplitAux c (a :: cur) as

def goSplit (s : String) (c : Char) : List String := (goSplitAux c [] s.data).map String.mk

/-! ## Time model

Go `time.Time` appears in the source in three roles: formatting with the
`20060102` and `20060102T150405Z` layouts, instant comparison (`After`,
`Sub`, `Add`), and as the parse result of those same layouts.  A parsed
UTC civil time is modelled as `GoTime`; its instant is `GoTime.toNs`
(nanoseconds since the Unix epoch); `UTCNow()` instants are arbitrary
integers supplied as parameters. -/

structure GoTime where
  year : Nat
  month : Nat
  day : Nat
  hour : Nat
  minute : Nat
  sec : Nat
deriving DecidableEq, Repr

def pad2 (n : Nat) : String := if n < 10 then "0" ++ toString n else toString n

def pad4 (n : Nat) : String :=
  if n < 10 then "000" ++ toString n
  else if n < 100 then "00" ++ toString n
  else if n < 1000 then "0" ++ toString n
  else toString n

/-- Go layout `20060102` (the `yyyymmdd` constant of the source). -/
def GoTime.formatYYYYMMDD (t : GoTime) : String :=
  pad4 t.year ++ pad2 t.month ++ pad2 t.day

/-- Go layout `20060102T150405Z` (the `iso8601Format` constant). -/
def GoTime.formatISO8601 (t : GoTime) : String :=
  t.formatYYYYMMDD ++ "T" ++ pad2 t.hour ++ pad2 t.minute ++ pad2 t.sec ++ "Z"

/-- Days between a civil date and 1970-01-01 (proleptic Gregorian). -/
def daysFromCivil (t : GoTime) : Int :=
  let y : Int := if t.month ≤ 2 then (t.year : Int) - 1 else (t.year : Int)
  let era := Int.fdiv y 400
  let yoe := y - era * 400
  let mp : Int := ((t.month : Int) + 9) % 12
  let doy := Int.fdiv (153 * mp + 2) 5 + (t.day : Int) - 1
  let doe := yoe * 365 + Int.fdiv yoe 4 - Int.fdiv yoe 100 + doy
  era * 146097 + doe - 719468

/-- The instant of a UTC civil time, in nanoseconds since the epoch. -/
def GoTime.toNs (t : GoTime) : Int :=
  (daysFromCivil t * 86400 + (t.hour : Int) * 3600 + (t.minute : Int) * 60 + (t.sec : Int)) * 1000000000

/-! ## Environment and constants -/

/-- Modelled from the spec: `utils.GetEnv` (pkg/utils, not under src) reads an
environment variable and falls back to the given default when it is unset.
The process environment is passed in as a function. -/
def getEnv (env : String → Option String) (key fallback : String) : String :=
  match env key with
  | some v => v
  | none => fallback

def signV4Algorithm : String := "AWS4-HMAC-SHA256"

/-! ## Canonical request construction (source lines 54-111) -/

/-- Go `http.Header` and `url.Values`: a map from names to value lists,
modelled as an association list. -/
abbrev HeaderMap : Type := List (String × List String)

/-- The signed-header name list: alphabetically sorted, semicolon-joined,
lower-cased (source `getSignedHeaders`). -/
def getSignedHeaders (signedHeaders : HeaderMap) : String :=
  goJoin ";" (sortStrings (signedHeaders.map (fun p => goToLower p.1)))

/-- The `vals` map of source `getCanonicalHeaders`: lower-cased keys, later
writes overwriting earlier ones, as Go map assignment does. -/
def valsMap (signedHeaders : HeaderMap) : String → List String :=
  signedHeaders.foldl (fun m p => fun k => if k = goToLower p.1 then p.2 else m k) (fun _ => [])

/-- Source `getCanonicalHeaders`: one `name:value` line per (lower-cased,
sorted) header name, values comma-joined after `signV4TrimAll`. -/
def getCanonicalHeaders (signedHeaders : HeaderMap) : String :=
  let headers := sortStrings (signedHeaders.map (fun p => goToLower p.1))
  String.join (headers.map (fun k =>
    k ++ ":" ++ goJoin "," ((valsMap signedHeaders k).map signV4TrimAll) ++ "\n"))

def isUnreservedPathChar (c : Char) : Bool :=
  (65 ≤ c.toNat && c.toNat ≤ 90) || (97 ≤ c.toNat && c.toNat ≤ 122) ||
  (48 ≤ c.toNat && c.toNat ≤ 57) ||
  c.toNat = 45 || c.toNat = 95 || c.toNat = 46 || c.toNat = 126 || c.toNat = 47

def hexCharUpper (n : Nat) : Char :=
  if n < 10 then Char.ofNat (48 + n) else Char.ofNat (55 + n)

/-- Modelled from the spec: `s3utils.EncodePath` (external minio-go library)
escapes each path character per RFC 3986, keeping unreserved characters and
the slash, percent-encoding everything else as uppercase-hex UTF-8 bytes;
strings made only of kept characters are returned unchanged. -/
def encodePath (pathName : String) : String :=
  if pathName ≠ "" ∧ pathName.data.all isUnreservedPathChar then pathName
  else String.mk ((pathName.data.map (fun c =>
    if isUnreservedPathChar c then [c]
    else ((utf8Bytes c).map (fun b => [Char.ofNat 37, hexCharUpper (b / 16), hexCharUpper (b % 16)])).flatten)).flatten)

/-- Source `getCanonicalRequest` (lines 99-111): newline-joined method,
encoded path, query with plus replaced by percent-20, canonical headers,
signed-header list, payload hash. -/
def getCanonicalRequest (extractedSignedHeaders : HeaderMap)
    (payload queryStr urlPath method : String) : String :=
  let rawQuery := goReplaceChar queryStr (Char.ofNat 43) "%20"
  let encodedPath := encodePath urlPath
  goJoin "\n"
    [method, encodedPath, rawQuery, getCanonicalHeaders extractedSignedHeaders,
     getSignedHeaders extractedSignedHeaders, payload]

/-! ## Scope, string-to-sign, signing key, signature (source lines 113-145) -/

/-- Source `getScope` (lines 114-122). -/
def getScope (env : String → Option String) (t : GoTime) (region : String) : String :=
  goJoin "/" [t.formatYYYYMMDD, region, getEnv env "SERVICE" "s3", "aws4_request"]

/-- Source `getStringToSign` (lines 125-131). -/
def getStringToSign (canonicalRequest : String) (t : GoTime) (scope : String) : String :=
  signV4Algorithm ++ "\n" ++ t.formatISO8601 ++ "\n" ++ scope ++ "\n" ++
    hexEncodeToString (sha256 (strBytes canonicalRequest))

/-- Source `getSigningKey` (lines 134-140): the four-stage HMAC chain. -/
def getSigningKey (env : String → Option String) (secretKey : String) (t : GoTime)
    (region : String) : List Nat :=
  let date := sumHMAC (strBytes ("AWS4" ++ secretKey)) (strBytes t.formatYYYYMMDD)
  let regionBytes := sumHMAC date (strBytes region)
  let service := sumHMAC regionBytes (strBytes (getEnv env "SERVICE" "s3"))
  sumHMAC service (strBytes "aws4_request")

/-- Source `getSignature` (lines 143-145). -/
def getSignature (signingKey : List Nat) (stringToSign : String) : String :=
  hexEncodeToString (sumHMAC signingKey (strBytes stringToSign))

/-! ## Constant-time comparison (source lines 156-163) -/

/-- Models Go `crypto/subtle.ConstantTimeCompare`: zero when lengths differ,
otherwise one exactly when the or-accumulated per-byte xor is zero. -/
def constantTimeCompare (x y : List Nat) : Nat :=
  if x.length ≠ y.length then 0
  else if (List.zipWith Nat.xor x y).foldl Nat.lor 0 = 0 then 1 else 0

/-- Source `compareSignatureV4`. -/
def compareSignatureV4 (sig1 sig2 : String) : Bool :=
  constantTimeCompare (strBytes sig1) (strBytes sig2) == 1

/-! ## Error codes -/

/-- The API error codes the verified source mentions.  `ErrOther` stands for
the remaining codes of the (external) error table, so that modelled
collaborator parsers can fail with codes of their own. -/
inductive APIErrorCode where
  | ErrNone
  | ErrSignatureDoesNotMatch
  | ErrInvalidAccessKeyID
  | ErrContentSHA256Mismatch
  | ErrRequestNotReadyYet
  | ErrExpiredPresignRequest
  | ErrMissingFields
  | ErrMissingDateHeader
  | ErrMalformedDate
  | ErrMalformedCredential
  | ErrOther (n : Nat)
deriving DecidableEq, Repr

structure Credentials where
  AccessKey : String
  SecretKey : String
deriving DecidableEq, Repr

/-! ## url.Values operations -/

/-- Models Go `url.Values.Get`: first value of the key, empty when absent. -/
def Values.get : HeaderMap → String → String
  | [], _ => ""
  | p :: t, key =>
      if p.1 = key then p.2.headD "" else Values.get t key

/-- Models Go map assignment `v[key] = vals` (also `url.Values.Set` when
`vals` is a singleton): replace the entry, or append it when absent. -/
def Values.setAll : HeaderMap → String → List String → HeaderMap
  | [], key, vals => [(key, vals)]
  | p :: t, key, vals =>
      if p.1 = key then (key, vals) :: Values.setAll t key vals
      else p :: Values.setAll t key vals

def isUnreservedQueryByte (b : Nat) : Bool :=
  (65 ≤ b && b ≤ 90) || (97 ≤ b && b ≤ 122) || (48 ≤ b && b ≤ 57) ||
  b = 45 || b = 95 || b = 46 || b = 126

/-- Models Go `url.QueryEscape`: keep unreserved bytes, space becomes plus,
everything else percent-encoded uppercase. -/
def queryEscape (s : String) : String :=
  String.mk (((strBytes s).map (fun b =>
    if isUnreservedQueryByte b then [Char.ofNat b]
    else if b = 32 then [Char.ofNat 43]
    else [Char.ofNat 37, hexCharUpper (b / 16), hexCharUpper (b % 16)])).flatten)

def Values.getAll (v : HeaderMap) (key : String) : List String :=
  match v.find? (fun p => p.1 == key) with
  | some p => p.2
  | none => []

/-- Models Go `url.Values.Encode`: keys sorted, each value escaped as
key=value, joined with ampersands. -/
def valuesEncode (v : HeaderMap) : String :=
  let keys := sortStrings ((v.map Prod.fst).eraseDups)
  goJoin "&" ((keys.map (fun k =>
    (Values.getAll v k).map (fun val => queryEscape k ++ "=" ++ queryEscape val))).flatten)

/-! ## Credential store (source lines 393-422) -/

/-- The external state `getCredentials` reads: the rados object named by the
access key (whose bytes after offset four are the user id) and the key list
that `radosgw-admin user info` reports for that user (empty when the command
or the JSON unmarshal fails, since every error is discarded). -/
structure RadosOracle where
  readUserID : String → String
  adminSecretKeys : String → List String

/-- Source `getCredentials`: every rados and command error is discarded and
the returned code is the constant `ErrNone`; indexing `Keys[0]` panics when
the reported key list is empty, modelled as `none`. -/
def getCredentials (oracle : RadosOracle) (accessKey : String) :
    Option (String × Credentials × APIErrorCode) :=
  let userID := oracle.readUserID accessKey
  match oracle.adminSecretKeys userID with
  | [] => none
  | sk :: _ => some (userID, ⟨accessKey, sk⟩, APIErrorCode.ErrNone)

/-! ## Presigned flow (source lines 204-319) -/

/-- The fields of the parsed presigned query (`parsePreSignV4` result) that
the source reads: access key, credential scope date and region, the
credential scope string, the signing time, the expiry duration (nanoseconds)
and the declared signed-header names. -/
structure PreSignValues where
  accessKey : String
  scopeDate : GoTime
  scopeRegion : String
  credScope : String
  date : GoTime
  expires : Int
  signedHeaders : List String

/-- Source lines 258-264: the request parameters whose lower-cased name does
not start with x-amz are copied into the reconstructed query. -/
def copyNonAmz (reqQuery q : HeaderMap) : HeaderMap :=
  reqQuery.foldl
    (fun acc p => if goHasPre (goToLower p.1) "x-amz" then acc else Values.setAll acc p.1 p.2) q

/-- The query the server reconstructs in the presigned flow (source lines
228-234 and 248-264): content hash when the request carried one, algorithm
tag, date, expires, signed headers, credential, and the non-x-amz request
parameters copied over. -/
def presignReconQuery (env : String → Option String) (cred : Credentials)
    (psv : PreSignValues) (extractedSignedHeaders : HeaderMap)
    (hashedPayload : String) (reqQuery : HeaderMap) : HeaderMap :=
  let q0 : HeaderMap :=
    if Values.get reqQuery "X-Amz-Content-Sha256" ≠ "" then
      Values.setAll [] "X-Amz-Content-Sha256" [hashedPayload]
    else []
  let q1 := Values.setAll q0 "X-Amz-Algorithm" [signV4Algorithm]
  let q2 := Values.setAll q1 "X-Amz-Date" [psv.date.formatISO8601]
  let q3 := Values.setAll q2 "X-Amz-Expires" [toString (Int.tdiv psv.expires 1000000000)]
  let q4 := Values.setAll q3 "X-Amz-SignedHeaders" [getSignedHeaders extractedSignedHeaders]
  let q5 := Values.setAll q4 "X-Amz-Credential"
    [cred.AccessKey ++ "/" ++ getScope env psv.date psv.scopeRegion]
  copyNonAmz reqQuery q5

/-- Source lines 266-318 of `doesPresignedSignatureMatch`: the five
reconstructed-query equality checks, then the shared canonicalization,
signing-key and comparison pipeline.  Split out of the flow so that the
checks can be reasoned about by name; the reconstructed `query` is
`presignReconQuery`. -/
def presignVerify (env : String → Option String) (cred : Credentials) (psv : PreSignValues)
    (extracted : HeaderMap) (hashedPayload : String) (reqQuery : HeaderMap)
    (urlPath method userID : String) : Option (String × APIErrorCode) :=
  let query := presignReconQuery env cred psv extracted hashedPayload reqQuery
  let encodedQuery := valuesEncode query
  if Values.get reqQuery "X-Amz-Date" ≠ Values.get query "X-Amz-Date" then
    some (userID, APIErrorCode.ErrSignatureDoesNotMatch)
  else if Values.get reqQuery "X-Amz-Expires" ≠ Values.get query "X-Amz-Expires" then
    some (userID, APIErrorCode.ErrSignatureDoesNotMatch)
  else if Values.get reqQuery "X-Amz-SignedHeaders" ≠ Values.get query "X-Amz-SignedHeaders" then
    some (userID, APIErrorCode.ErrSignatureDoesNotMatch)
  else if Values.get reqQuery "X-Amz-Credential" ≠ Values.get query "X-Amz-Credential" then
    some (userID, APIErrorCode.ErrSignatureDoesNotMatch)
  else if Values.get reqQuery "X-Amz-Content-Sha256" ≠ "" ∧
      Values.get reqQuery "X-Amz-Content-Sha256" ≠ Values.get query "X-Amz-Content-Sha256" then
    some (userID, APIErrorCode.ErrContentSHA256Mismatch)
  else
    let presignedCanonicalReq :=
      getCanonicalRequest extracted hashedPayload encodedQuery urlPath method
    let presignedStringToSign := getStringToSign presignedCanonicalReq psv.date psv.credScope
    let presignedSigningKey := getSigningKey env cred.SecretKey psv.scopeDate psv.scopeRegion
    let newSignature := getSignature presignedSigningKey presignedStringToSign
    if !(compareSignatureV4 (Values.get reqQuery "X-Amz-Signature") newSignature) then
      some (userID, APIErrorCode.ErrSignatureDoesNotMatch)
    else some (userID, APIErrorCode.ErrNone)

/-- Source `doesPresignedSignatureMatch`.  `parseRes` is the outcome of
`parsePreSignV4` and `extractSignedHeaders` that of the header extractor,
both defined in sibling source files and modelled as parameters; `now1` and
`now2` are the two `UTCNow()` samples of lines 238 and 243.  `none` models
the `Keys[0]` panic inside `getCredentials`. -/
def doesPresignedSignatureMatch (env : String → Option String) (oracle : RadosOracle)
    (now1 now2 globalMaxSkewTime : Int)
    (parseRes : Except APIErrorCode PreSignValues)
    (extractSignedHeaders : List String → Except APIErrorCode HeaderMap)
    (hashedPayload : String) (reqQuery : HeaderMap) (urlPath method : String) :
    Option (String × APIErrorCode) :=
  match parseRes with
  | .error e => some ("", e)
  | .ok psv =>
    match getCredentials oracle psv.accessKey with
    | none => none
    | some (userID, cred, err) =>
      if err ≠ APIErrorCode.ErrNone then some (userID, APIErrorCode.ErrInvalidAccessKeyID) else
      match extractSignedHeaders psv.signedHeaders with
      | .error errCode => some (userID, errCode)
      | .ok extracted =>
        if psv.date.toNs > now1 + globalMaxSkewTime then
          some (userID, APIErrorCode.ErrRequestNotReadyYet)
        else if now2 - psv.date.toNs > psv.expires then
          some (userID, APIErrorCode.ErrExpiredPresignRequest)
        else
          presignVerify env cred psv extracted hashedPayload reqQuery urlPath method userID

/-! ## Header flow (source lines 324-391) -/

/-- The fields of the parsed Authorization header (`parseSignV4` result)
that the source reads. -/
structure SignValues where
  accessKey : String
  scopeDate : GoTime
  scopeRegion : String
  credScope : String
  signedHeaders : List String
  signature : String

/-- Source lines 367-390 of `doesSignatureMatch`: the shared
canonicalization, signing-key and comparison pipeline run once the date
header has been parsed.  Split out of the flow so it can be reasoned about
by name. -/
def headerVerify (env : String → Option String) (cred : Credentials) (sv : SignValues)
    (extracted : HeaderMap) (hashedPayload : String) (reqQuery : HeaderMap)
    (urlPath method uid : String) (t : GoTime) : Option (String × APIErrorCode) :=
  let queryStr := valuesEncode reqQuery
  let canonicalRequest := getCanonicalRequest extracted hashedPayload queryStr urlPath method
  let stringToSign := getStringToSign canonicalRequest t sv.credScope
  let signingKey := getSigningKey env cred.SecretKey sv.scopeDate sv.scopeRegion
  let newSignature := getSignature signingKey stringToSign
  if !(compareSignatureV4 newSignature sv.signature) then
    some (uid, APIErrorCode.ErrSignatureDoesNotMatch)
  else some (uid, APIErrorCode.ErrNone)

/-- Source `doesSignatureMatch`.  `parseRes`, `extractSignedHeaders` and the
iso8601 time parser are collaborators from sibling source files, modelled as
parameters. -/
def doesSignatureMatch (env : String → Option String) (oracle : RadosOracle)
    (parseRes : Except APIErrorCode SignValues)
    (extractSignedHeaders : List String → Except APIErrorCode HeaderMap)
    (parseIso8601 : String → Option GoTime)
    (reqHeaders : HeaderMap) (hashedPayload : String) (reqQuery : HeaderMap)
    (urlPath method : String) : Option (String × APIErrorCode) :=
  match parseRes with
  | .error e => some ("", e)
  | .ok signV4Values =>
    match extractSignedHeaders signV4Values.signedHeaders with
    | .error errCode => some ("", errCode)
    | .ok extracted =>
      match getCredentials oracle signV4Values.accessKey with
      | none => none
      | some (userID, cred, err) =>
        if err ≠ APIErrorCode.ErrNone then some (userID, APIErrorCode.ErrInvalidAccessKeyID) else
        let date :=
          if Values.get reqHeaders "X-Amz-Date" ≠ "" then Values.get reqHeaders "X-Amz-Date"
          else Values.get reqHeaders "Date"
        if date = "" then some (userID, APIErrorCode.ErrMissingDateHeader) else
        match parseIso8601 date with
        | none => some (userID, APIErrorCode.ErrMalformedDate)
        | some t =>
          headerVerify env cred signV4Values extracted hashedPayload reqQuery urlPath method
            userID t

/-! ## POST policy flow (source lines 168-199) -/

structure CredScope where
  date : GoTime
  region : String
  service : String
deriving DecidableEq, Repr

structure CredentialHeader where
  accessKey : String
  scope : CredScope
deriving DecidableEq, Repr

def isDigitChar (c : Char) : Bool := 48 ≤ c.toNat && c.toNat ≤ 57

def digitVal (c : Char) : Nat := c.toNat - 48

def daysInMonth (y m : Nat) : Nat :=
  if m = 2 then (if (y % 4 = 0 ∧ y % 100 ≠ 0) ∨ y % 400 = 0 then 29 else 28)
  else if m = 4 ∨ m = 6 ∨ m = 9 ∨ m = 11 then 30
  else 31

/-- Modelled from the spec: the credential date is parsed with the fixed
8-digit calendar format (Go layout 20060102), as `time.Parse` does,
rejecting out-of-range months and days. -/
def parseYYYYMMDD (s : String) : Option GoTime :=
  match s.data with
  | [y1, y2, y3, y4, m1, m2, d1, d2] =>
      if [y1, y2, y3, y4, m1, m2, d1, d2].all isDigitChar then
        let y := ((digitVal y1 * 10 + digitVal y2) * 10 + digitVal y3) * 10 + digitVal y4
        let m := digitVal m1 * 10 + digitVal m2
        let d := digitVal d1 * 10 + digitVal d2
        if 1 ≤ m ∧ m ≤ 12 ∧ 1 ≤ d ∧ d ≤ daysInMonth y m then some ⟨y, m, d, 0, 0, 0⟩
        else none
      else none
  | _ => none

set_option linter.unusedVariables false in
/-- Modelled from the spec: `parseCredentialHeader` lives in a sibling
source file; per the spec it strips the `Credential=` tag, splits on the
slash, requires exactly five segments with the trailing `aws4_request`
literal (malformed-credential otherwise), and parses the date segment with
the fixed 8-digit format (malformed-date otherwise).  The region argument
is kept for signature parity; the spec assigns region re-validation to the
authenticator, not the parser. -/
def parseCredentialHeader (credElement : String) (region : String) :
    Except APIErrorCode CredentialHeader :=
  if !(goHasPre credElement "Credential=") then .error APIErrorCode.ErrMalformedCredential else
  let rest := String.mk (credElement.data.drop 11)
  match goSplit rest (Char.ofNat 47) with
  | [accessKey, dateStr, rg, service, terminal] =>
      if terminal ≠ "aws4_request" then .error APIErrorCode.ErrMalformedCredential else
      match parseYYYYMMDD dateStr with
      | none => .error APIErrorCode.ErrMalformedDate
      | some d => .ok ⟨accessKey, ⟨d, rg, service⟩⟩
  | _ => .error APIErrorCode.ErrMalformedCredential

/-- Source `doesPolicySignatureV4Match`.  `cred` and `region` are the
server-configured credential and region (`globalServerConfig`, a collaborator
outside src), passed as parameters. -/
def doesPolicySignatureV4Match (env : String → Option String) (cred : Credentials)
    (region : String) (formValues : HeaderMap) : APIErrorCode :=
  match parseCredentialHeader ("Credential=" ++ Values.get formValues "X-Amz-Credential") region with
  | .error _ => APIErrorCode.ErrMissingFields
  | .ok credHeader =>
    if credHeader.accessKey ≠ cred.AccessKey then APIErrorCode.ErrInvalidAccessKeyID else
    let signingKey := getSigningKey env cred.SecretKey credHeader.scope.date credHeader.scope.region
    let newSignature := getSignature signingKey (Values.get formValues "Policy")
    if !(compareSignatureV4 newSignature (Values.get formValues "X-Amz-Signature")) then
      APIErrorCode.ErrSignatureDoesNotMatch
    else APIErrorCode.ErrNone

/-! ## Server configuration and backends (src/pkg/config/server.go) -/

inductive AuthenticationBackend where
  | dummyBackend
  | cephBackend
deriving DecidableEq, Repr

structure ServerConfig where
  Region : String
  Host : String
  AuthBackend : Option AuthenticationBackend

/-- Source `SetAuthBackend`: a string-keyed map lookup; an unknown name
yields the nil interface, modelled as `none`. -/
def setAuthBackend (backend : String) : Option AuthenticationBackend :=
  List.lookup backend
    [("DummyBackend", AuthenticationBackend.dummyBackend),
     ("CephBackend", AuthenticationBackend.cephBackend)]

/-- Source `SetServerConfig`. -/
def setServerConfig (env : String → Option String) : ServerConfig :=
  { Region := getEnv env "RGW_REGION" "us-east-1"
    Host := getEnv env "RGW_DNS_NAME" "cloud.inwinstack.com"
    AuthBackend := setAuthBackend (getEnv env "AUTH_BACKEND" "DummyBackend") }

/-- The `GetUser` method of the two backends.  `DummyBackend.GetUser` ignores
the request and returns the fixed identity; `CephBackend.GetUser` delegates
to `cmd.ReqSignatureV4Verify` (a collaborator outside src, passed as the
`reqSignatureV4Verify` parameter) with the literal us-east-1 region. -/
def backendGetUser {ρ : Type} (reqSignatureV4Verify : ρ → String → String × APIErrorCode)
    (b : AuthenticationBackend) (r : ρ) : String × APIErrorCode :=
  match b with
  | .dummyBackend => ("tester", APIErrorCode.ErrNone)
  | .cephBackend => reqSignatureV4Verify r "us-east-1"

/-! ## Supporting lemmas -/

theorem mem_insertStr : ∀ (l : List String) (x y : String),
    y ∈ insertStr x l ↔ y = x ∨ y ∈ l
  | [], x, y => by simp [insertStr]
  | z :: zs, x, y => by
      simp only [insertStr]
      by_cases h : goStrLe x z = true
      · simp [h]
      · simp [h, mem_insertStr zs x y]
        tauto

theorem mem_sortStrings : ∀ (l : List String) (y : String), y ∈ sortStrings l ↔ y ∈ l
  | [], y => by simp [sortStrings]
  | x :: xs, y => by
      simp [sortStrings, mem_insertStr, mem_sortStrings xs y]

theorem Values.get_setAll_self : ∀ (q : HeaderMap) (k : String) (vals : List String),
    Values.get (Values.setAll q k vals) k = vals.headD ""
  | [], k, vals => by simp [Values.setAll, Values.get]
  | p :: t, k, vals => by
      by_cases h : p.1 = k
      · simp [Values.setAll, h, Values.get]
      · simp [Values.setAll, h, Values.get, Values.get_setAll_self t k vals]

theorem Values.get_setAll_ne : ∀ (q : HeaderMap) (k k2 : String) (vals : List String),
    k ≠ k2 → Values.get (Values.setAll q k2 vals) k = Values.get q k
  | [], k, k2, vals, h => by simp [Values.setAll, Values.get, Ne.symm h]
  | p :: t, k, k2, vals, h => by
      by_cases hp : p.1 = k2
      · have hkp : p.1 ≠ k := by
          rw [hp]
          exact Ne.symm h
        simp [Values.setAll, hp, Values.get, Ne.symm h, hkp,
          Values.get_setAll_ne t k k2 vals h]
      · simp only [Values.setAll, if_neg hp, Values.get,
          Values.get_setAll_ne t k k2 vals h]

theorem Values.get_copyNonAmz : ∀ (rq q : HeaderMap) (k : String),
    goHasPre (goToLower k) "x-amz" = true →
    Values.get (copyNonAmz rq q) k = Values.get q k
  | [], _, _, _ => rfl
  | p :: t, q, k, hk => by
      simp only [copyNonAmz, List.foldl]
      by_cases hp : goHasPre (goToLower p.1) "x-amz" = true
      · simpa [hp, copyNonAmz] using Values.get_copyNonAmz t q k hk
      · have hne : k ≠ p.1 := by
          rintro rfl
          exact hp hk
        have step : Values.get (copyNonAmz t (Values.setAll q p.1 p.2)) k
            = Values.get (Values.setAll q p.1 p.2) k := Values.get_copyNonAmz t _ k hk
        simp only [hp, if_false, Bool.false_eq_true, copyNonAmz] at step ⊢
        rw [step, Values.get_setAll_ne q k p.1 p.2 hne]

theorem presignRecon_get_date (env : String → Option String) (cred : Credentials)
    (psv : PreSignValues) (ex : HeaderMap) (hp : String) (rq : HeaderMap) :
    Values.get (presignReconQuery env cred psv ex hp rq) "X-Amz-Date" =
      psv.date.formatISO8601 := by
  simp only [presignReconQuery]
  rw [Values.get_copyNonAmz _ _ _ (by decide),
    Values.get_setAll_ne _ _ _ _ (by decide),
    Values.get_setAll_ne _ _ _ _ (by decide),
    Values.get_setAll_ne _ _ _ _ (by decide),
    Values.get_setAll_self]
  rfl

theorem presignRecon_get_expires (env : String → Option String) (cred : Credentials)
    (psv : PreSignValues) (ex : HeaderMap) (hp : String) (rq : HeaderMap) :
    Values.get (presignReconQuery env cred psv ex hp rq) "X-Amz-Expires" =
      toString (Int.tdiv psv.expires 1000000000) := by
  simp only [presignReconQuery]
  rw [Values.get_copyNonAmz _ _ _ (by decide),
    Values.get_setAll_ne _ _ _ _ (by decide),
    Values.get_setAll_ne _ _ _ _ (by decide),
    Values.get_setAll_self]
  rfl

theorem presignRecon_get_signedHeaders (env : String → Option String) (cred : Credentials)
    (psv : PreSignValues) (ex : HeaderMap) (hp : String) (rq : HeaderMap) :
    Values.get (presignReconQuery env cred psv ex hp rq) "X-Amz-SignedHeaders" =
      getSignedHeaders ex := by
  simp only [presignReconQuery]
  rw [Values.get_copyNonAmz _ _ _ (by decide),
    Values.get_setAll_ne _ _ _ _ (by decide),
    Values.get_setAll_self]
  rfl

theorem presignRecon_get_credential (env : String → Option String) (cred : Credentials)
    (psv : PreSignValues) (ex : HeaderMap) (hp : String) (rq : HeaderMap) :
    Values.get (presignReconQuery env cred psv ex hp rq) "X-Amz-Credential" =
      cred.AccessKey ++ "/" ++ getScope env psv.date psv.scopeRegion := by
  simp only [presignReconQuery]
  rw [Values.get_copyNonAmz _ _ _ (by decide), Values.get_setAll_self]
  rfl

theorem presignRecon_get_sha (env : String → Option String) (cred : Credentials)
    (psv : PreSignValues) (ex : HeaderMap) (hp : String) (rq : HeaderMap)
    (hpresent : Values.get rq "X-Amz-Content-Sha256" ≠ "") :
    Values.get (presignReconQuery env cred psv ex hp rq) "X-Amz-Content-Sha256" = hp := by
  simp only [presignReconQuery, if_pos hpresent]
  rw [Values.get_copyNonAmz _ _ _ (by decide),
    Values.get_setAll_ne _ _ _ _ (by decide),
    Values.get_setAll_ne _ _ _ _ (by decide),
    Values.get_setAll_ne _ _ _ _ (by decide),
    Values.get_setAll_ne _ _ _ _ (by decide),
    Values.get_setAll_ne _ _ _ _ (by decide),
    Values.get_setAll_self]
  rfl

theorem presign_unfold (env : String → Option String) (oracle : RadosOracle)
    (now1 now2 skew : Int) (psv : PreSignValues)
    (extractSH : List String → Except APIErrorCode HeaderMap)
    (hp : String) (rq : HeaderMap) (urlPath method uid : String)
    (cred : Credentials) (hdrs : HeaderMap)
    (hcred : getCredentials oracle psv.accessKey = some (uid, cred, APIErrorCode.ErrNone))
    (hex : extractSH psv.signedHeaders = Except.ok hdrs) :
    doesPresignedSignatureMatch env oracle now1 now2 skew (Except.ok psv) extractSH hp rq
      urlPath method =
      if psv.date.toNs > now1 + skew then some (uid, APIErrorCode.ErrRequestNotReadyYet)
      else if now2 - psv.date.toNs > psv.expires then
        some (uid, APIErrorCode.ErrExpiredPresignRequest)
      else presignVerify env cred psv hdrs hp rq urlPath method uid := by
  simp [doesPresignedSignatureMatch, hcred, hex]

theorem presignVerify_shape (env : String → Option String) (cred : Credentials)
    (psv : PreSignValues) (hdrs : HeaderMap) (hp : String) (rq : HeaderMap)
    (urlPath method uid : String) (r : String × APIErrorCode)
    (h : presignVerify env cred psv hdrs hp rq urlPath method uid = some r) :
    r.1 = uid ∧ (r.2 = APIErrorCode.ErrSignatureDoesNotMatch ∨
      r.2 = APIErrorCode.ErrContentSHA256Mismatch ∨ r.2 = APIErrorCode.ErrNone) := by
  simp only [presignVerify] at h
  split_ifs at h <;> (cases h; exact ⟨rfl, by simp⟩)

theorem headerVerify_shape (env : String → Option String) (cred : Credentials)
    (sv : SignValues) (extracted : HeaderMap) (hp : String) (rq : HeaderMap)
    (urlPath method uid : String) (t : GoTime) (r : String × APIErrorCode)
    (h : headerVerify env cred sv extracted hp rq urlPath method uid t = some r) :
    r.1 = uid ∧ (r.2 = APIErrorCode.ErrSignatureDoesNotMatch ∨ r.2 = APIErrorCode.ErrNone) := by
  simp only [headerVerify] at h
  split_ifs at h <;> (cases h; exact ⟨rfl, by simp⟩)

theorem nat_lor_eq_zero_iff (a b : Nat) : Nat.lor a b = 0 ↔ a = 0 ∧ b = 0 := by
  have hn : Nat.lor a b = a ||| b := rfl
  rw [hn]
  constructor
  · intro h
    refine ⟨Nat.eq_of_testBit_eq fun i => ?_, Nat.eq_of_testBit_eq fun i => ?_⟩ <;>
      · have hb := congrArg (fun n => Nat.testBit n i) h
        simp [Nat.testBit_lor] at hb
        simp [hb]
  · rintro ⟨rfl, rfl⟩
    rfl

theorem foldl_lor_eq_zero : ∀ (l : List Nat) (a : Nat),
    l.foldl Nat.lor a = 0 ↔ a = 0 ∧ ∀ b ∈ l, b = 0
  | [], a => by simp
  | c :: t, a => by
      simp only [List.foldl_cons, foldl_lor_eq_zero t (Nat.lor a c), nat_lor_eq_zero_iff,
        List.mem_cons]
      constructor
      · rintro ⟨⟨ha, hc⟩, ht⟩
        refine ⟨ha, fun b hb => ?_⟩
        rcases hb with rfl | hb
        · exact hc
        · exact ht b hb
      · rintro ⟨ha, hall⟩
        exact ⟨⟨ha, hall c (Or.inl rfl)⟩, fun b hb => hall b (Or.inr hb)⟩

theorem zipWith_xor_zero : ∀ (x y : List Nat), x.length = y.length →
    ((∀ c ∈ List.zipWith Nat.xor x y, c = 0) ↔ x = y)
  | [], [], _ => by simp
  | [], _ :: _, hl => by simp at hl
  | _ :: _, [], hl => by simp at hl
  | a :: as, b :: bs, hl => by
      have ih := zipWith_xor_zero as bs (by simpa using hl)
      simp only [List.zipWith_cons_cons, List.mem_cons, List.cons.injEq]
      constructor
      · intro hc
        refine ⟨Nat.xor_eq_zero.mp (hc _ (Or.inl rfl)), ih.mp fun c hcm => hc c (Or.inr hcm)⟩
      · rintro ⟨rfl, rfl⟩
        intro c hc
        rcases hc with rfl | hc
        · exact Nat.xor_self a
        · exact (ih.mpr rfl) c hc

/-- Claim C7: `compareSignatureV4` returns true exactly when the two
signature strings are byte-for-byte equal, and in particular returns false
whenever their byte lengths differ. -/
theorem compareSignatureV4_correct (sig1 sig2 : String) :
    (compareSignatureV4 sig1 sig2 = true ↔ strBytes sig1 = strBytes sig2) ∧
    ((strBytes sig1).length ≠ (strBytes sig2).length → compareSignatureV4 sig1 sig2 = false) := by
  have key : compareSignatureV4 sig1 sig2 = true ↔ strBytes sig1 = strBytes sig2 := by
    unfold compareSignatureV4 constantTimeCompare
    by_cases hlen : (strBytes sig1).length = (strBytes sig2).length
    · rw [if_neg (by simpa using hlen)]
      by_cases hz : (List.zipWith Nat.xor (strBytes sig1) (strBytes sig2)).foldl Nat.lor 0 = 0
      · rw [if_pos hz]
        simp only [show ((1 : Nat) == 1) = true from rfl, true_iff]
        exact (zipWith_xor_zero _ _ hlen).mp ((foldl_lor_eq_zero _ 0).mp hz).2
      · rw [if_neg hz]
        simp only [show ((0 : Nat) == 1) = false from rfl, Bool.false_eq_true, false_iff]
        intro heq
        exact hz ((foldl_lor_eq_zero _ 0).mpr ⟨rfl, (zipWith_xor_zero _ _ hlen).mpr heq⟩)
    · rw [if_pos (by simpa using hlen)]
      simp only [show ((0 : Nat) == 1) = false from rfl, Bool.false_eq_true, false_iff]
      intro heq
      exact hlen (by rw [heq])
  refine ⟨key, fun hlen => ?_⟩
  cases hcv : compareSignatureV4 sig1 sig2
  · rfl
  · exact absurd (key.mp hcv) fun heq => hlen (by rw [heq])

/-- Witness for C7 at a concrete input with differing lengths. -/
theorem compareSignatureV4_correct_witness :
    (strBytes "ab").length ≠ (strBytes "abc").length ∧
    compareSignatureV4 "ab" "abc" = false :=
  ⟨by decide, (compareSignatureV4_correct "ab" "abc").2 (by decide)⟩

/-- Claim C1: `getSigningKey` is the four-stage HMAC chain over the AWS4
prefixed secret, the formatted date, the region and the configured service
literal, finished with the aws4_request literal; and it is deterministic in
exactly those inputs (any environment and time agreeing on the formatted
date and the service literal give the same key). -/
theorem getSigningKey_hmac_chain (env env2 : String → Option String)
    (secretKey region : String) (t t2 : GoTime)
    (hdate : t2.formatYYYYMMDD = t.formatYYYYMMDD)
    (hserv : getEnv env2 "SERVICE" "s3" = getEnv env "SERVICE" "s3") :
    getSigningKey env secretKey t region =
      sumHMAC (sumHMAC (sumHMAC (sumHMAC (strBytes ("AWS4" ++ secretKey))
        (strBytes t.formatYYYYMMDD)) (strBytes region))
        (strBytes (getEnv env "SERVICE" "s3"))) (strBytes "aws4_request") ∧
    getSigningKey env2 secretKey t2 region = getSigningKey env secretKey t region := by
  refine ⟨rfl, ?_⟩
  unfold getSigningKey
  rw [hdate, hserv]

/-- Witness for C1 at concrete inputs (distinct environments and times that
agree on the formatted date and service literal). -/
theorem getSigningKey_hmac_chain_witness :
    GoTime.formatYYYYMMDD ⟨2015, 8, 30, 12, 7, 9⟩ = GoTime.formatYYYYMMDD ⟨2015, 8, 30, 0, 0, 0⟩ ∧
    getEnv (fun k => if k = "RGW_REGION" then some "r" else none) "SERVICE" "s3" =
      getEnv (fun _ => none) "SERVICE" "s3" ∧
    (getSigningKey (fun _ => none) "sk" ⟨2015, 8, 30, 0, 0, 0⟩ "us-east-1" =
      sumHMAC (sumHMAC (sumHMAC (sumHMAC (strBytes ("AWS4" ++ "sk"))
        (strBytes (GoTime.formatYYYYMMDD ⟨2015, 8, 30, 0, 0, 0⟩))) (strBytes "us-east-1"))
        (strBytes (getEnv (fun _ => none) "SERVICE" "s3"))) (strBytes "aws4_request") ∧
    getSigningKey (fun k => if k = "RGW_REGION" then some "r" else none) "sk"
      ⟨2015, 8, 30, 12, 7, 9⟩ "us-east-1" =
      getSigningKey (fun _ => none) "sk" ⟨2015, 8, 30, 0, 0, 0⟩ "us-east-1") :=
  ⟨by decide, by decide,
    getSigningKey_hmac_chain (fun _ => none) (fun k => if k = "RGW_REGION" then some "r" else none)
      "sk" "us-east-1" ⟨2015, 8, 30, 0, 0, 0⟩ ⟨2015, 8, 30, 12, 7, 9⟩ (by decide) (by decide)⟩

/-- Claim C6: `getStringToSign` is the algorithm constant, the ISO8601-basic
timestamp, the scope and the lowercase hex SHA-256 of the canonical request,
newline-separated; and `getScope` is date/region/service/aws4_request. -/
theorem getStringToSign_shape (canonicalRequest scope region : String) (t : GoTime)
    (env : String → Option String) :
    getStringToSign canonicalRequest t scope =
      "AWS4-HMAC-SHA256" ++ "\n" ++ t.formatISO8601 ++ "\n" ++ scope ++ "\n" ++
        hexEncodeToString (sha256 (strBytes canonicalRequest)) ∧
    getScope env t region =
      t.formatYYYYMMDD ++ "/" ++ region ++ "/" ++ getEnv env "SERVICE" "s3" ++ "/" ++
        "aws4_request" := by
  refine ⟨rfl, ?_⟩
  simp [getScope, goJoin, String.append_assoc]

/-- The environment configuring the iam service, for the spec's known
signing-key vector. -/
def envIam : String → Option String := fun k => if k = "SERVICE" then some "iam" else none

set_option maxRecDepth 100000 in
theorem signingKeyVecEq :
    hexEncodeToString (getSigningKey envIam "wJalrXUtnFEMI/K7MDENG/bPxRfiCYEXAMPLEKEY"
      ⟨2015, 8, 30, 0, 0, 0⟩ "us-east-1") =
    "2c94c0cf5378ada6887f09bb697df8fc0affdb34ba1cdd5bda32b664bd55b73c" := by decide

/-- Counterexample to claim C8: the derivation at the spec's stated inputs
does not produce the spec's 63-character hex string (a 32-byte key always
hex-encodes to 64 characters, and the actual value differs). -/
theorem signing_key_vector_cex :
    hexEncodeToString (getSigningKey envIam "wJalrXUtnFEMI/K7MDENG/bPxRfiCYEXAMPLEKEY"
      ⟨2015, 8, 30, 0, 0, 0⟩ "us-east-1") ≠
    "c4afb1cc5771d871763a393e44b703571b55cc28424d1a5e86da6ed3c154a4b" := by
  rw [signingKeyVecEq]
  decide

/-- Claim C8 as amended: with secret key wJalrXUtnFEMI/K7MDENG/bPxRfiCYEXAMPLEKEY,
date 20150830, region us-east-1 and service iam, the signing-key derivation
produces the key whose hex encoding is
2c94c0cf5378ada6887f09bb697df8fc0affdb34ba1cdd5bda32b664bd55b73c. -/
theorem signing_key_vector_amended :
    hexEncodeToString (getSigningKey envIam "wJalrXUtnFEMI/K7MDENG/bPxRfiCYEXAMPLEKEY"
      ⟨2015, 8, 30, 0, 0, 0⟩ "us-east-1") =
    "2c94c0cf5378ada6887f09bb697df8fc0affdb34ba1cdd5bda32b664bd55b73c" :=
  signingKeyVecEq

attribute [irreducible] sha256 sumHMAC getSigningKey getSignature getStringToSign
  getCanonicalRequest compareSignatureV4 valuesEncode


theorem getCredentials_errNone (oracle : RadosOracle) (ak uid : String)
    (cred : Credentials) (e : APIErrorCode)
    (h : getCredentials oracle ak = some (uid, cred, e)) : e = APIErrorCode.ErrNone := by
  simp only [getCredentials] at h
  cases hks : oracle.adminSecretKeys (oracle.readUserID ak) <;> rw [hks] at h
  · simp at h
  · simp only [Option.some.injEq, Prod.mk.injEq] at h
    exact h.2.2.symm

set_option linter.unreachableTactic false in
set_option linter.unusedTactic false in
/-- Claim C3 (refuted; the code has the bug): `getCredentials` discards every
credential-store error and returns `ErrNone` unconditionally, so after a
successful parse and header extraction neither the header flow nor the
presigned flow can ever fail with `ErrInvalidAccessKeyID`; the spec's
"lookup failure surfaces as invalid-access-key" has no reachable code path. -/
theorem credential_lookup_failure_never_surfaces
    (env : String → Option String) (oracle : RadosOracle)
    (sv : SignValues) (psv : PreSignValues)
    (extractSH extractSH2 : List String → Except APIErrorCode HeaderMap)
    (parseIso : String → Option GoTime)
    (reqHeaders : HeaderMap) (hp hp2 : String) (rq rq2 : HeaderMap)
    (urlPath method urlPath2 method2 : String) (now1 now2 skew : Int)
    (uid : String) (cred : Credentials) (e : APIErrorCode)
    (hdrs hdrs2 : HeaderMap) (r r2 : String × APIErrorCode)
    (hcred : getCredentials oracle sv.accessKey = some (uid, cred, e))
    (hex : extractSH sv.signedHeaders = Except.ok hdrs)
    (hex2 : extractSH2 psv.signedHeaders = Except.ok hdrs2)
    (hrun : doesSignatureMatch env oracle (Except.ok sv) extractSH parseIso reqHeaders hp rq
      urlPath method = some r)
    (hrun2 : doesPresignedSignatureMatch env oracle now1 now2 skew (Except.ok psv) extractSH2
      hp2 rq2 urlPath2 method2 = some r2) :
    e = APIErrorCode.ErrNone ∧ r.2 ≠ APIErrorCode.ErrInvalidAccessKeyID ∧
      r2.2 ≠ APIErrorCode.ErrInvalidAccessKeyID := by
  have he : e = APIErrorCode.ErrNone := getCredentials_errNone oracle sv.accessKey uid cred e hcred
  subst he
  refine ⟨rfl, ?_, ?_⟩
  · simp only [doesSignatureMatch, hex, hcred] at hrun
    simp only [ne_eq, not_true_eq_false, if_false, reduceIte] at hrun
    split at hrun <;>
      first
        | (cases hrun; simp)
        | (split at hrun <;>
            first
              | (cases hrun; simp)
              | (split at hrun <;>
                  first
                    | (cases hrun; simp)
                    | (rcases (headerVerify_shape env cred sv hdrs hp rq urlPath method uid _ _
                        hrun).2 with hc | hc <;> simp [hc]))
              | (rcases (headerVerify_shape env cred sv hdrs hp rq urlPath method uid _ _
                  hrun).2 with hc | hc <;> simp [hc]))
        | (rcases (headerVerify_shape env cred sv hdrs hp rq urlPath method uid _ _
            hrun).2 with hc | hc <;> simp [hc])
  · cases hc2 : getCredentials oracle psv.accessKey with
    | none => simp [doesPresignedSignatureMatch, hc2] at hrun2
    | some p =>
        obtain ⟨uid2, cred2, e2⟩ := p
        have he2 : e2 = APIErrorCode.ErrNone :=
          getCredentials_errNone oracle psv.accessKey uid2 cred2 e2 hc2
        subst he2
        rw [presign_unfold env oracle now1 now2 skew psv extractSH2 hp2 rq2 urlPath2 method2
          uid2 cred2 hdrs2 hc2 hex2] at hrun2
        split_ifs at hrun2
        · cases hrun2
          simp
        · cases hrun2
          simp
        · rcases (presignVerify_shape env cred2 psv hdrs2 hp2 rq2 urlPath2 method2 uid2 r2
            hrun2).2 with hc | hc | hc <;> simp [hc]

/-- Witness for C3 at concrete inputs: the header flow stops at the missing
date header and the presigned flow at the skew check, both after the store
lookup returned `ErrNone` even though the oracle reports a user the caller
never created. -/
theorem credential_lookup_failure_never_surfaces_witness :
    getCredentials ⟨fun _ => "u1", fun _ => ["SK"]⟩ "AK" =
      some ("u1", ⟨"AK", "SK"⟩, APIErrorCode.ErrNone) ∧
    doesSignatureMatch (fun _ => none) ⟨fun _ => "u1", fun _ => ["SK"]⟩
      (Except.ok ⟨"AK", ⟨2015, 8, 30, 0, 0, 0⟩, "us-east-1", "scope", ["host"], "s"⟩)
      (fun _ => Except.ok [("host", ["example.com"])]) (fun _ => none)
      [] "hp" [] "/p" "GET" = some ("u1", APIErrorCode.ErrMissingDateHeader) ∧
    doesPresignedSignatureMatch (fun _ => none) ⟨fun _ => "u1", fun _ => ["SK"]⟩
      0 0 0
      (Except.ok ⟨"AK", ⟨2015, 8, 30, 0, 0, 0⟩, "us-east-1", "scope",
        ⟨2015, 8, 30, 12, 36, 0⟩, 900000000000, ["host"]⟩)
      (fun _ => Except.ok [("host", ["example.com"])]) "hp" [] "/p" "GET" =
      some ("u1", APIErrorCode.ErrRequestNotReadyYet) ∧
    APIErrorCode.ErrNone = APIErrorCode.ErrNone ∧
    APIErrorCode.ErrMissingDateHeader ≠ APIErrorCode.ErrInvalidAccessKeyID ∧
    APIErrorCode.ErrRequestNotReadyYet ≠ APIErrorCode.ErrInvalidAccessKeyID := by
  refine ⟨by decide, by decide, by decide, ?_⟩
  exact credential_lookup_failure_never_surfaces (fun _ => none) ⟨fun _ => "u1", fun _ => ["SK"]⟩
    ⟨"AK", ⟨2015, 8, 30, 0, 0, 0⟩, "us-east-1", "scope", ["host"], "s"⟩
    ⟨"AK", ⟨2015, 8, 30, 0, 0, 0⟩, "us-east-1", "scope",
      ⟨2015, 8, 30, 12, 36, 0⟩, 900000000000, ["host"]⟩
    (fun _ => Except.ok [("host", ["example.com"])])
    (fun _ => Except.ok [("host", ["example.com"])]) (fun _ => none)
    [] "hp" "hp" [] [] "/p" "GET" "/p" "GET" 0 0 0
    "u1" ⟨"AK", "SK"⟩ APIErrorCode.ErrNone
    [("host", ["example.com"])] [("host", ["example.com"])]
    ("u1", APIErrorCode.ErrMissingDateHeader) ("u1", APIErrorCode.ErrRequestNotReadyYet)
    (by decide) rfl rfl (by decide) (by decide)

/-- Claim C4: in the presigned flow (after credential resolution and header
extraction), the not-ready rejection happens exactly when the signing time
is strictly beyond now plus the maximum clock skew, and the expiry rejection
exactly when the check is reached and now minus the signing time strictly
exceeds the declared expiry; both boundaries are accepted. -/
theorem presign_time_window_boundaries
    (env : String → Option String) (oracle : RadosOracle) (now1 now2 skew : Int)
    (psv : PreSignValues) (extractSH : List String → Except APIErrorCode HeaderMap)
    (hp : String) (rq : HeaderMap) (urlPath method uid : String)
    (cred : Credentials) (hdrs : HeaderMap)
    (hcred : getCredentials oracle psv.accessKey = some (uid, cred, APIErrorCode.ErrNone))
    (hex : extractSH psv.signedHeaders = Except.ok hdrs) :
    (doesPresignedSignatureMatch env oracle now1 now2 skew (Except.ok psv) extractSH hp rq
        urlPath method = some (uid, APIErrorCode.ErrRequestNotReadyYet) ↔
      psv.date.toNs > now1 + skew) ∧
    (doesPresignedSignatureMatch env oracle now1 now2 skew (Except.ok psv) extractSH hp rq
        urlPath method = some (uid, APIErrorCode.ErrExpiredPresignRequest) ↔
      (psv.date.toNs ≤ now1 + skew ∧ now2 - psv.date.toNs > psv.expires)) := by
  rw [presign_unfold env oracle now1 now2 skew psv extractSH hp rq urlPath method uid cred hdrs
    hcred hex]
  by_cases h1 : psv.date.toNs > now1 + skew
  · rw [if_pos h1]
    refine ⟨⟨fun _ => h1, fun _ => rfl⟩, ⟨fun hEq => absurd hEq (by simp), ?_⟩⟩
    rintro ⟨hle, _⟩
    exact absurd h1 (by omega)
  · rw [if_neg h1]
    by_cases h2 : now2 - psv.date.toNs > psv.expires
    · rw [if_pos h2]
      exact ⟨⟨fun hEq => absurd hEq (by simp), fun hgt => absurd hgt h1⟩,
        ⟨fun _ => ⟨by omega, h2⟩, fun _ => rfl⟩⟩
    · rw [if_neg h2]
      constructor
      · constructor
        · intro hEq
          rcases (presignVerify_shape env cred psv hdrs hp rq urlPath method uid _ hEq).2
            with hc | hc | hc <;> simp at hc
        · intro hgt
          exact absurd hgt h1
      · constructor
        · intro hEq
          rcases (presignVerify_shape env cred psv hdrs hp rq urlPath method uid _ hEq).2
            with hc | hc | hc <;> simp at hc
        · rintro ⟨_, hgt⟩
          exact absurd hgt h2

/-- Witness for C4 at concrete inputs: the signing time sits exactly at
now plus the skew, and exactly at the expiry boundary, and both rejections
are indeed absent. -/
theorem presign_time_window_boundaries_witness :
    getCredentials ⟨fun _ => "u1", fun _ => ["SK"]⟩ "AK" =
      some ("u1", ⟨"AK", "SK"⟩, APIErrorCode.ErrNone) ∧
    (fun (_ : List String) =>
      (Except.ok [("host", ["example.com"])] : Except APIErrorCode HeaderMap))
      ["host"] = Except.ok [("host", ["example.com"])] ∧
    ((doesPresignedSignatureMatch (fun _ => none) ⟨fun _ => "u1", fun _ => ["SK"]⟩
        (GoTime.toNs ⟨2015, 8, 30, 12, 36, 0⟩ - 60000000000) (GoTime.toNs ⟨2015, 8, 30, 12, 51, 0⟩)
        60000000000
        (Except.ok ⟨"AK", ⟨2015, 8, 30, 0, 0, 0⟩, "us-east-1", "scope",
          ⟨2015, 8, 30, 12, 36, 0⟩, 900000000000, ["host"]⟩)
        (fun _ => Except.ok [("host", ["example.com"])]) "hp" [] "/p" "GET" =
        some ("u1", APIErrorCode.ErrRequestNotReadyYet) ↔
      GoTime.toNs ⟨2015, 8, 30, 12, 36, 0⟩ >
        (GoTime.toNs ⟨2015, 8, 30, 12, 36, 0⟩ - 60000000000) + 60000000000) ∧
    (doesPresignedSignatureMatch (fun _ => none) ⟨fun _ => "u1", fun _ => ["SK"]⟩
        (GoTime.toNs ⟨2015, 8, 30, 12, 36, 0⟩ - 60000000000) (GoTime.toNs ⟨2015, 8, 30, 12, 51, 0⟩)
        60000000000
        (Except.ok ⟨"AK", ⟨2015, 8, 30, 0, 0, 0⟩, "us-east-1", "scope",
          ⟨2015, 8, 30, 12, 36, 0⟩, 900000000000, ["host"]⟩)
        (fun _ => Except.ok [("host", ["example.com"])]) "hp" [] "/p" "GET" =
        some ("u1", APIErrorCode.ErrExpiredPresignRequest) ↔
      (GoTime.toNs ⟨2015, 8, 30, 12, 36, 0⟩ ≤
          (GoTime.toNs ⟨2015, 8, 30, 12, 36, 0⟩ - 60000000000) + 60000000000 ∧
        GoTime.toNs ⟨2015, 8, 30, 12, 51, 0⟩ - GoTime.toNs ⟨2015, 8, 30, 12, 36, 0⟩ >
          900000000000))) := by
  refine ⟨by decide, rfl, ?_⟩
  exact presign_time_window_boundaries (fun _ => none) ⟨fun _ => "u1", fun _ => ["SK"]⟩
    (GoTime.toNs ⟨2015, 8, 30, 12, 36, 0⟩ - 60000000000) (GoTime.toNs ⟨2015, 8, 30, 12, 51, 0⟩)
    60000000000
    ⟨"AK", ⟨2015, 8, 30, 0, 0, 0⟩, "us-east-1", "scope",
      ⟨2015, 8, 30, 12, 36, 0⟩, 900000000000, ["host"]⟩
    (fun _ => Except.ok [("host", ["example.com"])]) "hp" [] "/p" "GET" "u1" ⟨"AK", "SK"⟩
    [("host", ["example.com"])] (by decide) rfl

/-- Counterexample to claim C2: at these concrete inputs the received
X-Amz-Content-Sha256 differs from the reconstructed value, and the flow
fails with `ErrContentSHA256Mismatch`, not with `ErrSignatureDoesNotMatch`
as the claim states for every such mismatch. -/
theorem presign_content_sha_mismatch_cex :
    doesPresignedSignatureMatch (fun _ => none) ⟨fun _ => "u1", fun _ => ["SK"]⟩
      (GoTime.toNs ⟨2015, 8, 30, 12, 36, 0⟩) (GoTime.toNs ⟨2015, 8, 30, 12, 36, 0⟩) 0
      (Except.ok ⟨"AK", ⟨2015, 8, 30, 0, 0, 0⟩, "us-east-1", "20150830/us-east-1/s3/aws4_request",
        ⟨2015, 8, 30, 12, 36, 0⟩, 900000000000, ["host"]⟩)
      (fun _ => Except.ok [("host", ["example.com"])]) "cafe"
      [("X-Amz-Date", ["20150830T123600Z"]), ("X-Amz-Expires", ["900"]),
       ("X-Amz-SignedHeaders", ["host"]),
       ("X-Amz-Credential", ["AK/20150830/us-east-1/s3/aws4_request"]),
       ("X-Amz-Content-Sha256", ["beef"])]
      "/bucket/key" "GET" = some ("u1", APIErrorCode.ErrContentSHA256Mismatch) ∧
    APIErrorCode.ErrContentSHA256Mismatch ≠ APIErrorCode.ErrSignatureDoesNotMatch := by
  exact ⟨by decide, by decide⟩

/-- Claim C2 as amended: after credential resolution and the time-window
checks, a mismatch on the received X-Amz-Date, X-Amz-Expires,
X-Amz-SignedHeaders or X-Amz-Credential value against the reconstructed one
fails with `ErrSignatureDoesNotMatch`, while a mismatch on a present
X-Amz-Content-Sha256 fails with `ErrContentSHA256Mismatch`; each of these
verdicts is independent of the final HMAC comparison, which, together with
the canonical request, is reached only when all five checks pass. -/
theorem presign_query_equality_checks
    (env : String → Option String) (oracle : RadosOracle) (now1 now2 skew : Int)
    (psv : PreSignValues) (extractSH : List String → Except APIErrorCode HeaderMap)
    (hp : String) (rq : HeaderMap) (urlPath method uid : String)
    (cred : Credentials) (hdrs : HeaderMap)
    (hcred : getCredentials oracle psv.accessKey = some (uid, cred, APIErrorCode.ErrNone))
    (hex : extractSH psv.signedHeaders = Except.ok hdrs)
    (hskew : ¬ psv.date.toNs > now1 + skew)
    (hexp : ¬ now2 - psv.date.toNs > psv.expires) :
    doesPresignedSignatureMatch env oracle now1 now2 skew (Except.ok psv) extractSH hp rq
      urlPath method =
    some (uid,
      if Values.get rq "X-Amz-Date" ≠ psv.date.formatISO8601 then
        APIErrorCode.ErrSignatureDoesNotMatch
      else if Values.get rq "X-Amz-Expires" ≠ toString (Int.tdiv psv.expires 1000000000) then
        APIErrorCode.ErrSignatureDoesNotMatch
      else if Values.get rq "X-Amz-SignedHeaders" ≠ getSignedHeaders hdrs then
        APIErrorCode.ErrSignatureDoesNotMatch
      else if Values.get rq "X-Amz-Credential" ≠
          cred.AccessKey ++ "/" ++ getScope env psv.date psv.scopeRegion then
        APIErrorCode.ErrSignatureDoesNotMatch
      else if Values.get rq "X-Amz-Content-Sha256" ≠ "" ∧
          Values.get rq "X-Amz-Content-Sha256" ≠ hp then
        APIErrorCode.ErrContentSHA256Mismatch
      else if !(compareSignatureV4 (Values.get rq "X-Amz-Signature")
          (getSignature (getSigningKey env cred.SecretKey psv.scopeDate psv.scopeRegion)
            (getStringToSign
              (getCanonicalRequest hdrs hp
                (valuesEncode (presignReconQuery env cred psv hdrs hp rq)) urlPath method)
              psv.date psv.credScope))) then
        APIErrorCode.ErrSignatureDoesNotMatch
      else APIErrorCode.ErrNone) := by
  rw [presign_unfold env oracle now1 now2 skew psv extractSH hp rq urlPath method uid cred hdrs
    hcred hex, if_neg hskew, if_neg hexp]
  simp only [presignVerify]
  rw [presignRecon_get_date env cred psv hdrs hp rq,
    presignRecon_get_expires env cred psv hdrs hp rq,
    presignRecon_get_signedHeaders env cred psv hdrs hp rq,
    presignRecon_get_credential env cred psv hdrs hp rq]
  by_cases hsha : Values.get rq "X-Amz-Content-Sha256" = ""
  · simp only [hsha, ne_eq, not_true_eq_false, false_and, if_false, reduceIte]
    split_ifs <;> rfl
  · rw [presignRecon_get_sha env cred psv hdrs hp rq hsha]
    split_ifs <;> rfl

/-- Witness for C2 (amended) at concrete inputs with the time checks passing. -/
theorem presign_query_equality_checks_witness :
    getCredentials ⟨fun _ => "u1", fun _ => ["SK"]⟩ "AK" =
      some ("u1", ⟨"AK", "SK"⟩, APIErrorCode.ErrNone) ∧
    (¬ GoTime.toNs ⟨2015, 8, 30, 12, 36, 0⟩ > GoTime.toNs ⟨2015, 8, 30, 12, 36, 0⟩ + 0) ∧
    (¬ GoTime.toNs ⟨2015, 8, 30, 12, 36, 0⟩ - GoTime.toNs ⟨2015, 8, 30, 12, 36, 0⟩ >
      (900000000000 : Int)) ∧
    doesPresignedSignatureMatch (fun _ => none) ⟨fun _ => "u1", fun _ => ["SK"]⟩
      (GoTime.toNs ⟨2015, 8, 30, 12, 36, 0⟩) (GoTime.toNs ⟨2015, 8, 30, 12, 36, 0⟩) 0
      (Except.ok ⟨"AK", ⟨2015, 8, 30, 0, 0, 0⟩, "us-east-1", "20150830/us-east-1/s3/aws4_request",
        ⟨2015, 8, 30, 12, 36, 0⟩, 900000000000, ["host"]⟩)
      (fun _ => Except.ok [("host", ["example.com"])]) "cafe" [("q", ["v"])] "/bucket/key" "GET" =
    some ("u1",
      if Values.get [("q", ["v"])] "X-Amz-Date" ≠
          GoTime.formatISO8601 ⟨2015, 8, 30, 12, 36, 0⟩ then
        APIErrorCode.ErrSignatureDoesNotMatch
      else if Values.get [("q", ["v"])] "X-Amz-Expires" ≠
          toString (Int.tdiv (900000000000 : Int) 1000000000) then
        APIErrorCode.ErrSignatureDoesNotMatch
      else if Values.get [("q", ["v"])] "X-Amz-SignedHeaders" ≠
          getSignedHeaders [("host", ["example.com"])] then
        APIErrorCode.ErrSignatureDoesNotMatch
      else if Values.get [("q", ["v"])] "X-Amz-Credential" ≠
          "AK" ++ "/" ++ getScope (fun _ => none) ⟨2015, 8, 30, 12, 36, 0⟩ "us-east-1" then
        APIErrorCode.ErrSignatureDoesNotMatch
      else if Values.get [("q", ["v"])] "X-Amz-Content-Sha256" ≠ "" ∧
          Values.get [("q", ["v"])] "X-Amz-Content-Sha256" ≠ "cafe" then
        APIErrorCode.ErrContentSHA256Mismatch
      else if !(compareSignatureV4 (Values.get [("q", ["v"])] "X-Amz-Signature")
          (getSignature (getSigningKey (fun _ => none) "SK" ⟨2015, 8, 30, 0, 0, 0⟩ "us-east-1")
            (getStringToSign
              (getCanonicalRequest [("host", ["example.com"])] "cafe"
                (valuesEncode (presignReconQuery (fun _ => none) ⟨"AK", "SK"⟩
                  ⟨"AK", ⟨2015, 8, 30, 0, 0, 0⟩, "us-east-1",
                    "20150830/us-east-1/s3/aws4_request", ⟨2015, 8, 30, 12, 36, 0⟩,
                    900000000000, ["host"]⟩
                  [("host", ["example.com"])] "cafe" [("q", ["v"])]))
                "/bucket/key" "GET")
              ⟨2015, 8, 30, 12, 36, 0⟩ "20150830/us-east-1/s3/aws4_request"))) then
        APIErrorCode.ErrSignatureDoesNotMatch
      else APIErrorCode.ErrNone) := by
  refine ⟨by decide, by decide, by decide, ?_⟩
  exact presign_query_equality_checks (fun _ => none) ⟨fun _ => "u1", fun _ => ["SK"]⟩
    (GoTime.toNs ⟨2015, 8, 30, 12, 36, 0⟩) (GoTime.toNs ⟨2015, 8, 30, 12, 36, 0⟩) 0
    ⟨"AK", ⟨2015, 8, 30, 0, 0, 0⟩, "us-east-1", "20150830/us-east-1/s3/aws4_request",
      ⟨2015, 8, 30, 12, 36, 0⟩, 900000000000, ["host"]⟩
    (fun _ => Except.ok [("host", ["example.com"])]) "cafe" [("q", ["v"])] "/bucket/key" "GET"
    "u1" ⟨"AK", "SK"⟩ [("host", ["example.com"])] (by decide) rfl (by decide) (by decide)

/-! ## Canonical-request shape (claim C5) -/

/-- Spec-side lookup: the values of the (unique) signed header whose
lower-cased name is the given one. -/
def headerValuesOf : HeaderMap → String → List String
  | [], _ => []
  | q :: t, k => if goToLower q.1 = k then q.2 else headerValuesOf t k

/-- Spec-side canonical header block, written from the claim: one
lower-cased name:value line per signed header, names in alphabetical order,
each header's values comma-joined after whitespace trimming. -/
def canonicalHeaderBlockSpec (h : HeaderMap) : String :=
  String.join ((sortStrings (h.map (fun p => goToLower p.1))).map (fun k =>
    k ++ ":" ++ goJoin "," ((headerValuesOf h k).map signV4TrimAll) ++ "\n"))

theorem valsFold_stable : ∀ (t : HeaderMap) (m : String → List String) (k : String),
    k ∉ t.map (fun p => goToLower p.1) →
    t.foldl (fun m2 p => fun k2 => if k2 = goToLower p.1 then p.2 else m2 k2) m k = m k
  | [], _, _, _ => rfl
  | p :: s, m, k, hk => by
      simp only [List.map_cons, List.mem_cons, not_or] at hk
      simp only [List.foldl_cons]
      rw [valsFold_stable s _ k hk.2]
      simp [hk.1]

theorem valsFold_find : ∀ (h : HeaderMap) (m : String → List String) (k : String),
    (h.map (fun p => goToLower p.1)).Nodup → k ∈ h.map (fun p => goToLower p.1) →
    h.foldl (fun m2 p => fun k2 => if k2 = goToLower p.1 then p.2 else m2 k2) m k =
      headerValuesOf h k
  | [], _, k, _, hk => by simp at hk
  | p :: s, m, k, hnd, hk => by
      simp only [List.map_cons, List.nodup_cons] at hnd
      simp only [List.map_cons, List.mem_cons] at hk
      by_cases hkp : k = goToLower p.1
      · subst hkp
        simp only [List.foldl_cons]
        rw [valsFold_stable s _ _ hnd.1]
        simp [headerValuesOf]
      · have hks : k ∈ s.map (fun p => goToLower p.1) := by
          rcases hk with h1 | h2
          · exact absurd h1 hkp
          · exact h2
        simp only [List.foldl_cons]
        rw [valsFold_find s _ k hnd.2 hks]
        simp only [headerValuesOf]
        exact (if_neg fun hh => hkp hh.symm).symm

theorem getCanonicalHeaders_eq_spec (h : HeaderMap)
    (hnd : (h.map (fun p => goToLower p.1)).Nodup) :
    getCanonicalHeaders h = canonicalHeaderBlockSpec h := by
  simp only [getCanonicalHeaders, canonicalHeaderBlockSpec, valsMap]
  congr 1
  apply List.map_congr_left
  intro k hk
  rw [mem_sortStrings] at hk
  rw [valsFold_find h (fun _ => []) k hnd hk]

/-- Claim C5: the canonical request is the newline-joined concatenation of
the method, the percent-encoded path, the query with plus replaced by
percent-20, the canonical header block (one lower-cased name:value line per
signed header, alphabetically by name, values comma-joined after
whitespace trimming), the alphabetically sorted semicolon-joined lower-cased
signed-header names, and the payload hash.  The hypothesis reflects that
header names are unique after lower-casing, as Go canonical header keys
are. -/
theorem getCanonicalRequest_shape (h : HeaderMap) (payload queryStr urlPath method : String)
    (hnd : (h.map (fun p => goToLower p.1)).Nodup) :
    getCanonicalRequest h payload queryStr urlPath method =
      method ++ "\n" ++ encodePath urlPath ++ "\n" ++
      goReplaceChar queryStr (Char.ofNat 43) "%20" ++ "\n" ++
      canonicalHeaderBlockSpec h ++ "\n" ++
      goJoin ";" (sortStrings (h.map (fun p => goToLower p.1))) ++ "\n" ++ payload := by
  simp only [getCanonicalRequest]
  rw [getCanonicalHeaders_eq_spec h hnd]
  simp [goJoin, getSignedHeaders, String.append_assoc]

/-- Witness for C5 at a concrete header map with unsorted, mixed-case names
and untrimmed values. -/
theorem getCanonicalRequest_shape_witness :
    ((([("X-Amz-Date", ["20150830T123600Z"]), ("Host", [" example .com "])] : HeaderMap).map
      (fun p => goToLower p.1)).Nodup) ∧
    getCanonicalRequest [("X-Amz-Date", ["20150830T123600Z"]), ("Host", [" example .com "])]
      "beef" "a=1+2" "/bucket/my key" "GET" =
      "GET" ++ "\n" ++ encodePath "/bucket/my key" ++ "\n" ++
      goReplaceChar "a=1+2" (Char.ofNat 43) "%20" ++ "\n" ++
      canonicalHeaderBlockSpec
        [("X-Amz-Date", ["20150830T123600Z"]), ("Host", [" example .com "])] ++ "\n" ++
      goJoin ";" (sortStrings (([("X-Amz-Date", ["20150830T123600Z"]),
        ("Host", [" example .com "])] : HeaderMap).map (fun p => goToLower p.1))) ++ "\n" ++
      "beef" :=
  ⟨by decide,
    getCanonicalRequest_shape [("X-Amz-Date", ["20150830T123600Z"]), ("Host", [" example .com "])]
      "beef" "a=1+2" "/bucket/my key" "GET" (by decide)⟩

/-- Claim C9: with the default environment the configured backend is the
dummy backend, whose GetUser returns the fixed identity tester with ErrNone
for every request and every verifier, performing no signature check. -/
theorem dummyBackend_default_accepts (ρ ρ2 : Type) (env : String → Option String)
    (verify : ρ → String → String × APIErrorCode) (verify2 : ρ2 → String → String × APIErrorCode)
    (r : ρ) (r2 : ρ2) (h : env "AUTH_BACKEND" = none) :
    (setServerConfig env).AuthBackend = some AuthenticationBackend.dummyBackend ∧
    backendGetUser verify AuthenticationBackend.dummyBackend r =
      ("tester", APIErrorCode.ErrNone) ∧
    backendGetUser verify AuthenticationBackend.dummyBackend r =
      backendGetUser verify2 AuthenticationBackend.dummyBackend r2 := by
  refine ⟨?_, rfl, rfl⟩
  simp [setServerConfig, getEnv, h, setAuthBackend, List.lookup]

/-- Witness for C9 with an empty environment and two different verifiers. -/
theorem dummyBackend_default_accepts_witness :
    ((fun (_ : String) => (none : Option String)) "AUTH_BACKEND" = none) ∧
    ((setServerConfig (fun _ => none)).AuthBackend =
        some AuthenticationBackend.dummyBackend ∧
      backendGetUser (fun (_ : Nat) (_ : String) => ("x", APIErrorCode.ErrSignatureDoesNotMatch))
        AuthenticationBackend.dummyBackend 0 = ("tester", APIErrorCode.ErrNone) ∧
      backendGetUser (fun (_ : Nat) (_ : String) => ("x", APIErrorCode.ErrSignatureDoesNotMatch))
        AuthenticationBackend.dummyBackend 0 =
      backendGetUser (fun (_ : Bool) (_ : String) => ("y", APIErrorCode.ErrExpiredPresignRequest))
        AuthenticationBackend.dummyBackend true) :=
  ⟨rfl, dummyBackend_default_accepts Nat Bool (fun _ => none)
    (fun _ _ => ("x", APIErrorCode.ErrSignatureDoesNotMatch))
    (fun _ _ => ("y", APIErrorCode.ErrExpiredPresignRequest)) 0 true rfl⟩

/-- Claim C10: the POST policy flow verifies against the server-configured
credential only; once the credential tag parses, a claimed access key
different from the configured one fails with ErrInvalidAccessKeyID, and
otherwise the signature is computed from the configured secret key directly
over the raw Policy form value with no canonical-request step and no
credential-store access (the flow takes no store at all). -/
theorem doesPolicySignatureV4Match_characterization (env : String → Option String)
    (cred : Credentials) (region : String) (form : HeaderMap) (ch : CredentialHeader)
    (hparse : parseCredentialHeader ("Credential=" ++ Values.get form "X-Amz-Credential") region
      = Except.ok ch) :
    doesPolicySignatureV4Match env cred region form =
      if ch.accessKey ≠ cred.AccessKey then APIErrorCode.ErrInvalidAccessKeyID
      else if !(compareSignatureV4
          (getSignature (getSigningKey env cred.SecretKey ch.scope.date ch.scope.region)
            (Values.get form "Policy")) (Values.get form "X-Amz-Signature")) then
        APIErrorCode.ErrSignatureDoesNotMatch
      else APIErrorCode.ErrNone := by
  simp only [doesPolicySignatureV4Match, hparse]

/-- Witness for C10 at a concrete form whose credential tag parses. -/
theorem doesPolicySignatureV4Match_characterization_witness :
    parseCredentialHeader ("Credential=" ++ Values.get
      [("X-Amz-Credential", ["AK123/20150830/us-east-1/s3/aws4_request"]),
       ("Policy", ["cG9saWN5"]), ("X-Amz-Signature", ["deadbeef"])] "X-Amz-Credential")
      "us-east-1" = Except.ok ⟨"AK123", ⟨⟨2015, 8, 30, 0, 0, 0⟩, "us-east-1", "s3"⟩⟩ ∧
    doesPolicySignatureV4Match (fun _ => none) ⟨"AKother", "SK"⟩ "us-east-1"
      [("X-Amz-Credential", ["AK123/20150830/us-east-1/s3/aws4_request"]),
       ("Policy", ["cG9saWN5"]), ("X-Amz-Signature", ["deadbeef"])] =
      (if ("AK123" : String) ≠ "AKother" then APIErrorCode.ErrInvalidAccessKeyID
      else if !(compareSignatureV4
          (getSignature (getSigningKey (fun _ => none) "SK" ⟨2015, 8, 30, 0, 0, 0⟩ "us-east-1")
            (Values.get [("X-Amz-Credential", ["AK123/20150830/us-east-1/s3/aws4_request"]),
              ("Policy", ["cG9saWN5"]), ("X-Amz-Signature", ["deadbeef"])] "Policy"))
          (Values.get [("X-Amz-Credential", ["AK123/20150830/us-east-1/s3/aws4_request"]),
            ("Policy", ["cG9saWN5"]), ("X-Amz-Signature", ["deadbeef"])] "X-Amz-Signature")) then
        APIErrorCode.ErrSignatureDoesNotMatch
      else APIErrorCode.ErrNone) := by
  constructor
  · rfl
  · exact doesPolicySignatureV4Match_characterization (fun _ => none) ⟨"AKother", "SK"⟩
      "us-east-1"
      [("X-Amz-Credential", ["AK123/20150830/us-east-1/s3/aws4_request"]),
       ("Policy", ["cG9saWN5"]), ("X-Amz-Signature", ["deadbeef"])]
      ⟨"AK123", ⟨⟨2015, 8, 30, 0, 0, 0⟩, "us-east-1", "s3"⟩⟩ rfl

end Kaoliang
